import Mathlib

/-!
Verification of the `sse.ts` Server-Sent-Events client (`src/index.ts`).

The TypeScript source is shallowly embedded: JavaScript strings are modelled
as `List Char`, the `Source` instance state as an explicit structure, and
each method as a pure state transformer that additionally returns the list
of events it dispatches (in dispatch order).  `String.prototype.split` on
the regex `(\r\n|\r|\n){2}` (global flag) is modelled including the two
behaviours that matter for the code: captured groups are interleaved into
the result array, and the backtracking of the `{2}` quantifier lets a single
`\r\n` pair match as the two one-character terminators `(\r)(\n)`.
-/

namespace SSE

/-- JavaScript strings, modelled as lists of characters. -/
abbrev JsStr := List Char

/-- The whitespace characters recognised by `String.prototype.trim`,
`trimStart` and `trimEnd`: the full ECMAScript WhiteSpace and
LineTerminator sets (tab, line feed, vertical tab, form feed, carriage
return, space, no-break space, Ogham space mark, the U+2000-U+200A en/em
spaces, line separator, paragraph separator, narrow no-break space,
medium mathematical space, ideographic space, and the byte-order mark). -/
def wsChars : List Char :=
  ['\t', '\n', '\x0b', '\x0c', '\r', ' ', '\u00A0', '\u1680', '\u2000',
   '\u2001', '\u2002', '\u2003', '\u2004', '\u2005', '\u2006', '\u2007',
   '\u2008', '\u2009', '\u200A', '\u2028', '\u2029', '\u202F', '\u205F',
   '\u3000', '\uFEFF']

/-- Whether `c` is (modelled) JavaScript whitespace. -/
def isWs (c : Char) : Bool := wsChars.contains c

/-- `String.prototype.trimStart` (alias `trimLeft`). -/
def jsTrimStart (s : JsStr) : JsStr := s.dropWhile isWs

/-- `String.prototype.trimEnd`. -/
def jsTrimEnd (s : JsStr) : JsStr := (s.reverse.dropWhile isWs).reverse

/-- `String.prototype.trim`. -/
def jsTrim (s : JsStr) : JsStr := jsTrimStart (jsTrimEnd s)

/-- `String.prototype.indexOf` for a single character: `none` models `-1`. -/
def indexOfChar (c : Char) (s : JsStr) : Option Nat := s.findIdx? (· = c)

/-- `value.split(/\n|\r\n|\r/)`: split into lines, where a terminator is
`\n`, `\r\n` or a lone `\r`. -/
def splitLines : JsStr → List JsStr
  | [] => [[]]
  | '\n' :: rest => [] :: splitLines rest
  | '\r' :: '\n' :: rest => [] :: splitLines rest
  | '\r' :: rest => [] :: splitLines rest
  | c :: rest =>
    match splitLines rest with
    | [] => [[c]]
    | l :: ls => (c :: l) :: ls

/-- `data.split(/(\r\n|\r|\n){2}/g)` with accumulator `acc` holding the
current (reversed) unmatched prefix.  Each case mirrors the backtracking
regex engine: at the leftmost position where two consecutive line
terminators can be matched (alternation preference `\r\n`, `\r`, `\n`,
with backtracking, so a lone `\r\n` matches as `(\r)(\n)`), the text so
far and the final captured group are emitted. -/
def splitDoubleAux (acc : JsStr) : JsStr → List JsStr
  | '\r' :: '\n' :: '\r' :: '\n' :: rest =>
    acc.reverse :: ['\r', '\n'] :: splitDoubleAux [] rest
  | '\r' :: '\n' :: '\r' :: rest =>
    acc.reverse :: ['\r'] :: splitDoubleAux [] rest
  | '\r' :: '\n' :: '\n' :: rest =>
    acc.reverse :: ['\n'] :: splitDoubleAux [] rest
  | '\r' :: '\n' :: rest =>
    acc.reverse :: ['\n'] :: splitDoubleAux [] rest
  | '\r' :: '\r' :: '\n' :: rest =>
    acc.reverse :: ['\r', '\n'] :: splitDoubleAux [] rest
  | '\r' :: '\r' :: rest =>
    acc.reverse :: ['\r'] :: splitDoubleAux [] rest
  | '\r' :: rest => splitDoubleAux ('\r' :: acc) rest
  | '\n' :: '\r' :: '\n' :: rest =>
    acc.reverse :: ['\r', '\n'] :: splitDoubleAux [] rest
  | '\n' :: '\r' :: rest =>
    acc.reverse :: ['\r'] :: splitDoubleAux [] rest
  | '\n' :: '\n' :: rest =>
    acc.reverse :: ['\n'] :: splitDoubleAux [] rest
  | '\n' :: rest => splitDoubleAux ('\n' :: acc) rest
  | c :: rest => splitDoubleAux (c :: acc) rest
  | [] => [acc.reverse]

/-- `data.split(/(\r\n|\r|\n){2}/g)`. -/
def splitDouble (s : JsStr) : List JsStr := splitDoubleAux [] s

/-!  Record parsing (`parseEventChunk`, source lines 252-300). -/

/-- The mutable accumulator object `e` of `parseEventChunk`: its five own
keys `id`, `retry`, `data`, `event`, `sse_id` with their initial values
(`field in e` tests membership among exactly these keys; assignments to
names inherited from `Object.prototype` do not affect the event built from
`e` and are therefore not represented). -/
structure RawRecord where
  id : Option JsStr
  retry : Option JsStr
  data : JsStr
  event : JsStr
  sse_id : JsStr
deriving DecidableEq, Repr

/-- The freshly initialised accumulator `e`. -/
def initRecord : RawRecord :=
  { id := none, retry := none, data := [], event := "message".toList, sse_id := [] }

/-- The per-line preprocessing of `parseEventChunk`: trim trailing
whitespace, locate the first `:`; a missing separator or a separator at
position 0 (comment line) yields `none`, otherwise the field name and the
value (text after the separator with leading whitespace stripped). -/
def lineKV (line0 : JsStr) : Option (JsStr × JsStr) :=
  let line := jsTrimEnd line0
  match indexOfChar ':' line with
  | none => none
  | some 0 => none
  | some (i + 1) =>
    some (line.take (i + 1), jsTrimStart (line.drop (i + 2)))

/-- One iteration of the `forEach` body of `parseEventChunk`: `data`
accumulates by concatenation, the other recognised fields are replaced,
unrecognised field names are ignored. -/
def stepLine (r : RawRecord) (line : JsStr) : RawRecord :=
  match lineKV line with
  | none => r
  | some (field, value) =>
    if field = "data".toList then { r with data := r.data ++ value }
    else if field = "id".toList then { r with id := some value }
    else if field = "retry".toList then { r with retry := some value }
    else if field = "event".toList then { r with event := value }
    else if field = "sse_id".toList then { r with sse_id := value }
    else r

/-- A failure object: either an `SSESourceException` (message and status,
status defaulting to 500) or any other caught error, reduced to the data
the client stores on the `error` event. -/
structure ErrObj where
  message : JsStr
  status : Nat
deriving DecidableEq, Repr

/-- The payload carried by a dispatched event: absent/null, a raw string,
or a failure object (`onStreamFailure` stores the caught error itself). -/
inductive EvData where
  | null : EvData
  | str : JsStr → EvData
  | fail : ErrObj → EvData
deriving DecidableEq, Repr

/-- A dispatched `SourceEvent` as observed by listeners: its `type`, its
`data`, and the optional `id`, `readyState` and `sse_id` fields. -/
structure SEvent where
  type : JsStr
  data : EvData
  id : Option JsStr := none
  readyState : Option Int := none
  sse_id : Option JsStr := none
deriving DecidableEq, Repr

/-- Building the `CustomEvent` at the end of `parseEventChunk`. -/
def buildEvent (r : RawRecord) : SEvent :=
  { type := r.event, data := .str r.data, id := r.id, sse_id := some r.sse_id }

/-- `parseEventChunk` (source lines 252-300): the empty chunk yields no
event, otherwise the chunk is split into lines and folded through the
accumulator. -/
def parseEventChunk (c : JsStr) : Option SEvent :=
  if c = [] then none
  else some (buildEvent ((splitLines c).foldl stepLine initRecord))

/-!  The connection state machine (the `Source` instance fields and the
methods that read or mutate them).  Each method becomes a function
`SourceState → SourceState × List SEvent` returning the new instance state
together with the events dispatched during the call, in dispatch order.
`dispatchEvent` itself only invokes listeners (which do not reach back into
the instance in this model) and, given `null`, is a no-op, so dispatching
is modelled as appending the event (when present) to the emitted list. -/

/-- `INITIALIZING` readyState value (-1). -/
def INITIALIZING : Int := -1

/-- `CONNECTING` readyState value (0). -/
def CONNECTING : Int := 0

/-- `OPEN` readyState value (1). -/
def OPEN : Int := 1

/-- `CLOSED` readyState value (2). -/
def CLOSED : Int := 2

/-- The mutable per-instance fields used by the parsing and lifecycle
methods: `_readyState`, `progress`, `chunk`, and whether `reader` is
non-null. -/
structure SourceState where
  readyState : Int := INITIALIZING
  progress : Nat := 0
  chunk : JsStr := []
  reader : Bool := false
deriving DecidableEq, Repr

/-- The `readystatechange` `CustomEvent` built in `setReadyState` (its
`data` property is never assigned; the unset property is modelled as
`null`). -/
def rscEvent (st : Int) : SEvent :=
  { type := "readystatechange".toList, data := .null, readyState := some st }

/-- `setReadyState` (source lines 205-210): record the new state, then
dispatch a `readystatechange` event carrying it. -/
def setReadyState (st : Int) (s : SourceState) : SourceState × List SEvent :=
  ({ s with readyState := st }, [rscEvent st])

/-- `close` (source lines 315-323): a no-op when already `CLOSED`,
otherwise release the reader and transition to `CLOSED`. -/
def close (s : SourceState) : SourceState × List SEvent :=
  if s.readyState = CLOSED then (s, [])
  else setReadyState CLOSED { s with reader := false }

/-- The `error` `CustomEvent` built in `onStreamFailure`, carrying the
failure object as `data`. -/
def errEvent (e : ErrObj) : SEvent :=
  { type := "error".toList, data := .fail e }

/-- `onStreamFailure` (source lines 212-217): dispatch an `error` event
carrying the failure, then `close()`. -/
def onStreamFailure (e : ErrObj) (s : SourceState) : SourceState × List SEvent :=
  let c := close s
  (c.1, errEvent e :: c.2)

/-- The `open` `CustomEvent` dispatched on the first chunk (`data` is
explicitly set to `null`). -/
def openEvent : SEvent :=
  { type := "open".toList, data := .null }

/-- The body of the `forEach` over the split parts in `onStreamProgress`:
a part that trims to nothing flushes the pending `chunk` (trimmed) through
`parseEventChunk` and dispatch, any other part is appended to `chunk`. -/
def processPart (se : SourceState × List SEvent) (part : JsStr) :
    SourceState × List SEvent :=
  let s := se.1
  if jsTrim part = [] then
    match parseEventChunk (jsTrim s.chunk) with
    | some ev => ({ s with chunk := [] }, se.2 ++ [ev])
    | none => ({ s with chunk := [] }, se.2)
  else ({ s with chunk := s.chunk ++ part }, se.2)

/-- `onStreamProgress` (source lines 219-239): on the first chunk while
`CONNECTING`, dispatch `open` and transition to `OPEN`; then take
`value.substring(this.progress)`, advance `progress` by its length, split
it on double line terminators and process each part. -/
def onStreamProgress (v : JsStr) (s : SourceState) : SourceState × List SEvent :=
  let se1 :=
    if s.readyState = CONNECTING then
      let r := setReadyState OPEN s
      (r.1, openEvent :: r.2)
    else (s, [])
  let data := v.drop se1.1.progress
  let s2 := { se1.1 with progress := se1.1.progress + data.length }
  (splitDouble data).foldl processPart (s2, se1.2)

/-- `onStreamLoaded` (source lines 241-247): run `onStreamProgress`, then
parse and dispatch whatever is left in `chunk` and reset it. -/
def onStreamLoaded (v : JsStr) (s : SourceState) : SourceState × List SEvent :=
  let se1 := onStreamProgress v s
  match parseEventChunk se1.1.chunk with
  | some ev => ({ se1.1 with chunk := [] }, se1.2 ++ [ev])
  | none => ({ se1.1 with chunk := [] }, se1.2)

/-- `checkStreamClosed` (source lines 151-155). -/
def checkStreamClosed (done : Bool) (s : SourceState) : SourceState × List SEvent :=
  if done then setReadyState CLOSED s else (s, [])

/-- The `while (this.readyState !== this.CLOSED)` read loop of `init`
(source lines 184-194), with the stream's chunks given as a list and the
end of the list modelling `done`. -/
def readLoop : List JsStr → SourceState → SourceState × List SEvent
  | chunks, s =>
    if s.readyState = CLOSED then (s, [])
    else
      match chunks with
      | [] => checkStreamClosed true s
      | c :: rest =>
        let r1 := onStreamLoaded c s
        let r2 := readLoop rest r1.1
        (r2.1, r1.2 ++ r2.2)

/-- The outcome of the `fetch` call: a response (success flag, status text,
status, optional body given as the list of text chunks the reader will
yield) or a thrown error. -/
structure FetchResponse where
  ok : Bool
  statusText : JsStr
  status : Nat
  body : Option (List JsStr)

/-- Either a response or an exception thrown while establishing the
stream. -/
inductive FetchResult where
  | success : FetchResponse → FetchResult
  | failure : ErrObj → FetchResult

/-- `init` (source lines 157-203): transition to `CONNECTING`; on a thrown
error, funnel it to `onStreamFailure`; on a non-ok response, funnel an
`SSESourceException (statusText, status)` to `onStreamFailure` but
continue; then attach the body reader when a body exists and run the read
loop, else report the missing body (an `SSESourceException` with default
status 500). -/
def init (fr : FetchResult) (s : SourceState) : SourceState × List SEvent :=
  let r0 := setReadyState CONNECTING s
  match fr with
  | .failure err =>
    let r1 := onStreamFailure err r0.1
    (r1.1, r0.2 ++ r1.2)
  | .success resp =>
    let r1 :=
      if resp.ok then (r0.1, ([] : List SEvent))
      else onStreamFailure { message := resp.statusText, status := resp.status } r0.1
    match resp.body with
    | some chunks =>
      let s2 := { r1.1 with reader := true }
      let r3 := readLoop chunks s2
      (r3.1, r0.2 ++ r1.2 ++ r3.2)
    | none =>
      let r2 := onStreamFailure
        { message := "The response did not have a body".toList, status := 500 } r1.1
      (r2.1, r0.2 ++ r1.2 ++ r2.2)

/-- A whole run of a fresh `Source` (the constructor builds the instance
with its field initialisers and calls `init`). -/
def runSource (fr : FetchResult) : SourceState × List SEvent :=
  init fr {}

/-- Whether an event is a parsed-record event of the default `message`
type. -/
def isMessage (ev : SEvent) : Bool := ev.type = "message".toList

/-- Whether an event is an `error` event. -/
def isError (ev : SEvent) : Bool := ev.type = "error".toList

/-- Whether an event is a `readystatechange` event reporting `CLOSED`. -/
def isRscClosed (ev : SEvent) : Bool :=
  ev.type = "readystatechange".toList && ev.readyState = some CLOSED

/-!  The listener registry, `on` and `formatDataOnEvent` (source lines
87-113, 302-313, 333-339).  Callbacks are values of an abstract type `κ`
(compared by identity, i.e. by the `DecidableEq` instance), and decoded
JSON values of an abstract type `J` produced by the external `JSON.parse`
collaborator, modelled as a function `JsStr → Option J` (`none` for a
throw).  Decoded values are objects/arrays, which are truthy and on which
a repeated decode attempt throws and leaves the data unchanged. -/

/-- An event `data` payload as seen by the `on` wrapper: `null`, a raw
string, or an already-decoded JSON value. -/
inductive FmtData (J : Type) where
  | null : FmtData J
  | str : JsStr → FmtData J
  | json : J → FmtData J
deriving DecidableEq, Repr

/-- `formatDataOnEvent` (source lines 302-313): falsy data (null or the
empty string) becomes `null`; otherwise `JSON.parse` is attempted and on
failure the data is left unchanged. -/
def formatDataOnEvent {J : Type} (parse : JsStr → Option J) :
    FmtData J → FmtData J
  | .null => .null
  | .str s =>
    if s = [] then .null
    else
      match parse s with
      | some j => .json j
      | none => .str s
  | .json j => .json j

/-- A registered callback: either one added directly by
`addEventListener`, or the wrapping `_listener` closure installed by
`on`. -/
inductive Entry (κ : Type) where
  | plain : κ → Entry κ
  | wrapped : κ → Entry κ
deriving DecidableEq, Repr

/-- The `listeners` record, keyed by event type. -/
abbrev Registry (κ : Type) := List (JsStr × List (Entry κ))

/-- Assignment `this.listeners[type] = v`. -/
def setListeners {κ : Type} (t : JsStr) (v : List (Entry κ)) :
    Registry κ → Registry κ
  | [] => [(t, v)]
  | (t', v') :: rest =>
    if t' = t then (t, v) :: rest else (t', v') :: setListeners t v rest

/-- Lookup `this.listeners[type]` (`none` models `undefined`). -/
def getListeners {κ : Type} (t : JsStr) : Registry κ → Option (List (Entry κ))
  | [] => none
  | (t', v') :: rest => if t' = t then some v' else getListeners t rest

/-- `addEventListener` (source lines 87-95): create the list if absent,
append the callback only when not already present. -/
def addEventListener {κ : Type} [DecidableEq κ] (t : JsStr) (cb : κ)
    (reg : Registry κ) : Registry κ :=
  let cur := (getListeners t reg).getD []
  if Entry.plain cb ∈ cur then reg
  else setListeners t (cur ++ [Entry.plain cb]) reg

/-- `on` (source lines 333-339): replace the whole listener list for the
type by the single wrapping closure around `cb`. -/
def onEvent {κ : Type} (t : JsStr) (cb : κ) (reg : Registry κ) : Registry κ :=
  setListeners t [Entry.wrapped cb] reg

/-- Invoking a registered entry on an event's data: the plain callback
receives the data as dispatched, the `on` wrapper first runs
`formatDataOnEvent` and then invokes the wrapped callback on the result. -/
def invokeEntry {J κ : Type} (parse : JsStr → Option J) :
    Entry κ → FmtData J → κ × FmtData J
  | .plain cb, d => (cb, d)
  | .wrapped cb, d => (cb, formatDataOnEvent parse d)

/-!  Auxiliary predicates used to state the theorems. -/

/-- The five field names with an own key on the accumulator `e`, i.e. the
names for which `field in e` holds and the assignment is observable. -/
def recognizedFields : List JsStr :=
  ["id".toList, "retry".toList, "data".toList, "event".toList, "sse_id".toList]

/-- No two adjacent line-feed characters. -/
def noAdjLF : JsStr → Bool
  | a :: b :: rest => !(a == '\n' && b == '\n') && noAdjLF (b :: rest)
  | _ => true

/-- Nonempty with a non-whitespace first character. -/
def headNonWs : JsStr → Bool
  | [] => false
  | c :: _ => !isWs c

/-- A well-formed single-record text (without its blank-line terminator):
nonempty, starting and ending with a non-whitespace character, free of
carriage returns and of empty interior lines. -/
def goodRecord (c : JsStr) : Bool :=
  headNonWs c && headNonWs c.reverse && c.all (fun x => x != '\r') && noAdjLF c

/-!  Helper lemmas. -/

theorem processPart_readyState (se : SourceState × List SEvent) (p : JsStr) :
    (processPart se p).1.readyState = se.1.readyState := by
  unfold processPart
  dsimp only
  split
  · split <;> rfl
  · rfl

theorem processPart_progress (se : SourceState × List SEvent) (p : JsStr) :
    (processPart se p).1.progress = se.1.progress := by
  unfold processPart
  dsimp only
  split
  · split <;> rfl
  · rfl

theorem processPart_reader (se : SourceState × List SEvent) (p : JsStr) :
    (processPart se p).1.reader = se.1.reader := by
  unfold processPart
  dsimp only
  split
  · split <;> rfl
  · rfl

theorem foldl_processPart_readyState :
    ∀ (parts : List JsStr) (se : SourceState × List SEvent),
      ((parts.foldl processPart se).1).readyState = se.1.readyState
  | [], _ => rfl
  | p :: rest, se => by
    rw [List.foldl_cons, foldl_processPart_readyState rest, processPart_readyState]

theorem foldl_processPart_progress :
    ∀ (parts : List JsStr) (se : SourceState × List SEvent),
      ((parts.foldl processPart se).1).progress = se.1.progress
  | [], _ => rfl
  | p :: rest, se => by
    rw [List.foldl_cons, foldl_processPart_progress rest, processPart_progress]

theorem foldl_processPart_reader :
    ∀ (parts : List JsStr) (se : SourceState × List SEvent),
      ((parts.foldl processPart se).1).reader = se.1.reader
  | [], _ => rfl
  | p :: rest, se => by
    rw [List.foldl_cons, foldl_processPart_reader rest, processPart_reader]

theorem onStreamProgress_readyState (v : JsStr) (s : SourceState) :
    (onStreamProgress v s).1.readyState =
      (if s.readyState = CONNECTING then OPEN else s.readyState) := by
  unfold onStreamProgress
  dsimp only
  split <;> rw [foldl_processPart_readyState] <;> rfl

theorem onStreamProgress_progress (v : JsStr) (s : SourceState) :
    (onStreamProgress v s).1.progress = max s.progress v.length := by
  unfold onStreamProgress
  dsimp only
  split <;>
    · rw [foldl_processPart_progress]
      dsimp only [setReadyState]
      rw [List.length_drop]
      omega

theorem onStreamProgress_reader (v : JsStr) (s : SourceState) :
    (onStreamProgress v s).1.reader = s.reader := by
  unfold onStreamProgress
  dsimp only
  split <;> rw [foldl_processPart_reader] <;> rfl

theorem close_readyState (s : SourceState) : (close s).1.readyState = CLOSED := by
  unfold close
  split
  · next h => exact h
  · rfl

theorem close_of_closed (s : SourceState) (h : s.readyState = CLOSED) :
    close s = (s, []) := by
  unfold close
  rw [if_pos h]

theorem close_of_ne (s : SourceState) (h : s.readyState ≠ CLOSED) :
    close s = ({ s with readyState := CLOSED, reader := false },
      [rscEvent CLOSED]) := by
  unfold close
  rw [if_neg h]
  rfl

theorem readLoop_closed (chunks : List JsStr) (s : SourceState)
    (h : s.readyState = CLOSED) : readLoop chunks s = (s, []) := by
  unfold readLoop
  rw [if_pos h]

theorem onStreamLoaded_readyState (v : JsStr) (s : SourceState) :
    (onStreamLoaded v s).1.readyState =
      (if s.readyState = CONNECTING then OPEN else s.readyState) := by
  unfold onStreamLoaded
  dsimp only
  split <;> rw [← onStreamProgress_readyState v s] <;> rfl

theorem jsTrimStart_eq_self (c : JsStr) (h : headNonWs c = true) :
    jsTrimStart c = c := by
  cases c with
  | nil => rfl
  | cons x xs =>
    simp only [headNonWs, Bool.not_eq_true'] at h
    simp [jsTrimStart, List.dropWhile_cons, h]

theorem jsTrimEnd_eq_self (c : JsStr) (h : headNonWs c.reverse = true) :
    jsTrimEnd c = c := by
  unfold jsTrimEnd
  rcases hr : c.reverse with _ | ⟨x, xs⟩
  · simpa using congrArg List.reverse hr.symm
  · rw [hr] at h
    simp only [headNonWs, Bool.not_eq_true'] at h
    rw [List.dropWhile_cons, h]
    simp only [Bool.false_eq_true, if_false]
    rw [← hr, List.reverse_reverse]

theorem jsTrim_eq_self (c : JsStr) (h1 : headNonWs c = true)
    (h2 : headNonWs c.reverse = true) : jsTrim c = c := by
  unfold jsTrim
  rw [jsTrimEnd_eq_self c h2, jsTrimStart_eq_self c h1]

theorem headNonWs_ne_nil (c : JsStr) (h : headNonWs c = true) : c ≠ [] := by
  cases c with
  | nil => simp [headNonWs] at h
  | cons x xs => simp

theorem getLast?_ne_lf (c : JsStr) (h : headNonWs c.reverse = true) :
    c.getLast? ≠ some '\n' := by
  rcases hr : c.reverse with _ | ⟨x, xs⟩
  · have : c = [] := by simpa using congrArg List.reverse hr.symm
    simp [this]
  · rw [hr] at h
    simp only [headNonWs, Bool.not_eq_true'] at h
    have hlast : c.getLast? = some x := by
      rw [← List.head?_reverse, hr]
      rfl
    rw [hlast]
    intro hcon
    have : x = '\n' := by simpa using hcon
    subst this
    simp [isWs, wsChars] at h

theorem goodRecord_spec (c : JsStr) (h : goodRecord c = true) :
    c ≠ [] ∧ jsTrim c = c ∧ (∀ x ∈ c, x ≠ '\r') ∧ noAdjLF c = true ∧
      c.getLast? ≠ some '\n' := by
  have h4 := h
  simp only [goodRecord, Bool.and_eq_true] at h4
  obtain ⟨⟨⟨hh, hhr⟩, hall⟩, hadj⟩ := h4
  refine ⟨headNonWs_ne_nil c hh, jsTrim_eq_self c hh hhr, ?_, hadj, getLast?_ne_lf c hhr⟩
  intro x hx
  have := List.all_eq_true.mp hall x hx
  simpa using this

theorem splitDoubleAux_consume (x : Char) (rest acc : JsStr)
    (h1 : x ≠ '\r') (h2 : x ≠ '\n') :
    splitDoubleAux acc (x :: rest) = splitDoubleAux (x :: acc) rest := by
  simp [splitDoubleAux, h1, h2]

theorem splitDoubleAux_consumeLF (y : Char) (rest acc : JsStr)
    (h1 : y ≠ '\r') (h2 : y ≠ '\n') :
    splitDoubleAux acc ('\n' :: y :: rest) = splitDoubleAux ('\n' :: acc) (y :: rest) := by
  simp [splitDoubleAux, h1, h2]

theorem splitDoubleAux_terminated :
    ∀ (c acc : JsStr), (∀ x ∈ c, x ≠ '\r') → noAdjLF c = true →
      c.getLast? ≠ some '\n' →
      splitDoubleAux acc (c ++ ['\n', '\n']) = (acc.reverse ++ c) :: ['\n'] :: [[]]
  | [], acc, _, _, _ => by simp [splitDoubleAux]
  | [x], acc, hr, _, hl => by
    have hx_r : x ≠ '\r' := hr x (by simp)
    have hx_n : x ≠ '\n' := by
      intro hcon
      exact hl (by simp [hcon])
    rw [List.cons_append, List.nil_append,
      splitDoubleAux_consume x _ acc hx_r hx_n]
    simp [splitDoubleAux]
  | x :: y :: rest, acc, hr, hadj, hl => by
    have hy_r : y ≠ '\r' := hr y (by simp)
    have hadj2 : noAdjLF (y :: rest) = true := by
      simp only [noAdjLF, Bool.and_eq_true] at hadj
      exact hadj.2
    have hl2 : (y :: rest).getLast? ≠ some '\n' := by
      rwa [List.getLast?_cons_cons] at hl
    have hr2 : ∀ z ∈ y :: rest, z ≠ '\r' := fun z hz => hr z (List.mem_cons_of_mem x hz)
    by_cases hx : x = '\n'
    · subst hx
      have hy_n : y ≠ '\n' := by
        intro hcon
        subst hcon
        simp [noAdjLF] at hadj
      rw [List.cons_append, List.cons_append,
        splitDoubleAux_consumeLF y _ acc hy_r hy_n, ← List.cons_append,
        splitDoubleAux_terminated (y :: rest) ('\n' :: acc) hr2 hadj2 hl2]
      simp
    · have hx_r : x ≠ '\r' := hr x (by simp)
      rw [List.cons_append, splitDoubleAux_consume x _ acc hx_r hx,
        splitDoubleAux_terminated (y :: rest) (x :: acc) hr2 hadj2 hl2]
      simp

theorem splitDouble_terminated (c : JsStr) (h : goodRecord c = true) :
    splitDouble (c ++ ['\n', '\n']) = [c, ['\n'], []] := by
  obtain ⟨-, -, hr, hadj, hl⟩ := goodRecord_spec c h
  unfold splitDouble
  rw [splitDoubleAux_terminated c [] hr hadj hl]
  rfl

theorem stepLine_of_none (r : RawRecord) (l : JsStr) (h : lineKV l = none) :
    stepLine r l = r := by
  unfold stepLine
  rw [h]

theorem stepLine_of_data (r : RawRecord) (l : JsStr) (v : JsStr)
    (h : lineKV l = some ("data".toList, v)) :
    stepLine r l = { r with data := r.data ++ v } := by
  unfold stepLine
  rw [h]
  rfl

theorem stepLine_of_id (r : RawRecord) (l : JsStr) (v : JsStr)
    (h : lineKV l = some ("id".toList, v)) :
    stepLine r l = { r with id := some v } := by
  unfold stepLine
  rw [h]
  rfl

theorem stepLine_of_retry (r : RawRecord) (l : JsStr) (v : JsStr)
    (h : lineKV l = some ("retry".toList, v)) :
    stepLine r l = { r with retry := some v } := by
  unfold stepLine
  rw [h]
  rfl

theorem stepLine_of_event (r : RawRecord) (l : JsStr) (v : JsStr)
    (h : lineKV l = some ("event".toList, v)) :
    stepLine r l = { r with event := v } := by
  unfold stepLine
  rw [h]
  rfl

theorem stepLine_of_sse (r : RawRecord) (l : JsStr) (v : JsStr)
    (h : lineKV l = some ("sse_id".toList, v)) :
    stepLine r l = { r with sse_id := v } := by
  unfold stepLine
  rw [h]
  rfl

theorem stepLine_of_unrecognized (r : RawRecord) (l : JsStr)
    (f v : JsStr) (h : lineKV l = some (f, v))
    (hn : f ∉ recognizedFields) : stepLine r l = r := by
  simp only [recognizedFields, List.mem_cons, List.not_mem_nil, or_false,
    not_or] at hn
  obtain ⟨n1, n2, n3, n4, n5⟩ := hn
  unfold stepLine
  rw [h]
  dsimp only
  split_ifs <;> simp_all

theorem stepLine_event_eq (r : RawRecord) (l : JsStr)
    (h : ∀ kv, lineKV l = some kv → kv.1 ≠ "event".toList) :
    (stepLine r l).event = r.event := by
  unfold stepLine
  cases hkv : lineKV l with
  | none => rfl
  | some kv =>
    obtain ⟨f, v⟩ := kv
    have hf : f ≠ "event".toList := h (f, v) hkv
    dsimp only
    split_ifs <;> simp_all

theorem stepLine_id_eq (r : RawRecord) (l : JsStr)
    (h : ∀ kv, lineKV l = some kv → kv.1 ≠ "id".toList) :
    (stepLine r l).id = r.id := by
  unfold stepLine
  cases hkv : lineKV l with
  | none => rfl
  | some kv =>
    obtain ⟨f, v⟩ := kv
    have hf : f ≠ "id".toList := h (f, v) hkv
    dsimp only
    split_ifs <;> simp_all

theorem stepLine_data_eq (r : RawRecord) (l : JsStr)
    (h : ∀ kv, lineKV l = some kv → kv.1 ≠ "data".toList) :
    (stepLine r l).data = r.data := by
  unfold stepLine
  cases hkv : lineKV l with
  | none => rfl
  | some kv =>
    obtain ⟨f, v⟩ := kv
    have hf : f ≠ "data".toList := h (f, v) hkv
    dsimp only
    split_ifs <;> simp_all

theorem foldl_stepLine_event :
    ∀ (ls : List JsStr) (r : RawRecord),
      (∀ l ∈ ls, ∀ kv, lineKV l = some kv → kv.1 ≠ "event".toList) →
      (ls.foldl stepLine r).event = r.event
  | [], _, _ => rfl
  | l :: rest, r, h => by
    rw [List.foldl_cons,
      foldl_stepLine_event rest (stepLine r l) (fun x hx => h x (List.mem_cons_of_mem l hx)),
      stepLine_event_eq r l (h l (List.mem_cons_self l rest))]

theorem foldl_stepLine_id :
    ∀ (ls : List JsStr) (r : RawRecord),
      (∀ l ∈ ls, ∀ kv, lineKV l = some kv → kv.1 ≠ "id".toList) →
      (ls.foldl stepLine r).id = r.id
  | [], _, _ => rfl
  | l :: rest, r, h => by
    rw [List.foldl_cons,
      foldl_stepLine_id rest (stepLine r l) (fun x hx => h x (List.mem_cons_of_mem l hx)),
      stepLine_id_eq r l (h l (List.mem_cons_self l rest))]

theorem foldl_stepLine_data :
    ∀ (ls : List JsStr) (r : RawRecord),
      (∀ l ∈ ls, ∀ kv, lineKV l = some kv → kv.1 ≠ "data".toList) →
      (ls.foldl stepLine r).data = r.data
  | [], _, _ => rfl
  | l :: rest, r, h => by
    rw [List.foldl_cons,
      foldl_stepLine_data rest (stepLine r l) (fun x hx => h x (List.mem_cons_of_mem l hx)),
      stepLine_data_eq r l (h l (List.mem_cons_self l rest))]

theorem splitLines_mem : ∀ (c : JsStr), ∀ l ∈ splitLines c, ∀ ch ∈ l, ch ∈ c := by
  intro c
  induction c using splitLines.induct with
  | case1 =>
    intro l hl ch hch
    simp only [splitLines, List.mem_singleton] at hl
    subst hl
    simp at hch
  | case2 rest ih =>
    intro l hl ch hch
    simp only [splitLines] at hl
    rcases List.mem_cons.mp hl with h | h
    · subst h; simp at hch
    · exact List.mem_cons_of_mem _ (ih l h ch hch)
  | case3 rest ih =>
    intro l hl ch hch
    simp only [splitLines] at hl
    rcases List.mem_cons.mp hl with h | h
    · subst h; simp at hch
    · exact List.mem_cons_of_mem _ (List.mem_cons_of_mem _ (ih l h ch hch))
  | case4 rest hne ih =>
    intro l hl ch hch
    simp only [splitLines, hne] at hl
    rcases List.mem_cons.mp hl with h | h
    · subst h; simp at hch
    · exact List.mem_cons_of_mem _ (ih l h ch hch)
  | case5 c0 rest h1 h2 h3 heq ih =>
    intro l hl ch hch
    simp only [splitLines, h1, h3, heq, List.mem_singleton] at hl
    subst hl
    rcases List.mem_singleton.mp hch with h
    subst h
    exact List.mem_cons_self _ _
  | case6 c0 rest h1 h2 h3 l0 ls0 heq ih =>
    intro l hl ch hch
    simp only [splitLines, h1, h3, heq] at hl
    rcases List.mem_cons.mp hl with h | h
    · subst h
      rcases List.mem_cons.mp hch with h | h
      · subst h; exact List.mem_cons_self _ _
      · exact List.mem_cons_of_mem _ (ih l0 (heq ▸ List.mem_cons_self _ _) ch h)
    · exact List.mem_cons_of_mem _ (ih l (heq ▸ List.mem_cons_of_mem _ h) ch hch)

theorem lineKV_of_ws (l : JsStr) (h : ∀ x ∈ l, isWs x = true) : lineKV l = none := by
  have ht : jsTrimEnd l = [] := by
    unfold jsTrimEnd
    have hd : l.reverse.dropWhile isWs = [] :=
      List.dropWhile_eq_nil_iff.mpr (fun x hx => h x (List.mem_reverse.mp hx))
    rw [hd]
    rfl
  unfold lineKV
  rw [ht]
  rfl

theorem foldl_stepLine_ws :
    ∀ (ls : List JsStr) (r : RawRecord), (∀ l ∈ ls, lineKV l = none) →
      ls.foldl stepLine r = r
  | [], _, _ => rfl
  | l :: rest, r, h => by
    rw [List.foldl_cons, stepLine_of_none r l (h l (List.mem_cons_self l rest)),
      foldl_stepLine_ws rest r (fun x hx => h x (List.mem_cons_of_mem l hx))]

theorem close_error_events (s : SourceState) : (close s).2.filter isError = [] := by
  unfold close
  split
  · rfl
  · rfl

theorem onStreamFailure_error_events (e : ErrObj) (s : SourceState) :
    (onStreamFailure e s).2.filter isError = [errEvent e] := by
  show (errEvent e :: (close s).2).filter isError = [errEvent e]
  rw [List.filter_cons_of_pos rfl, close_error_events]

/-!  The claims. -/

/-- C1: the claim states chunk-boundary invariance of the parser; the code
violates it.  Delivering the single record `data:hi\n\n` as one chunk
dispatches one `message` event with data `hi`, but delivering the same
text as the two chunks `data:` and `hi\n\n` dispatches one `message`
event with data `""` (the first fragment is flushed as its own record at
the end of the first read, and the second chunk is dropped entirely by the
`progress` offset), so the two deliveries disagree. -/
theorem C1_chunk_boundary_bug :
    ((runSource (.success ⟨true, [], 200, some ["data:hi\n\n".toList]⟩)).2.filter isMessage
      = [{ type := "message".toList, data := .str "hi".toList, id := none,
           sse_id := some [] }]) ∧
    ((runSource (.success ⟨true, [], 200,
        some ["data:".toList, "hi\n\n".toList]⟩)).2.filter isMessage
      = [{ type := "message".toList, data := .str [], id := none,
           sse_id := some [] }]) ∧
    (runSource (.success ⟨true, [], 200, some ["data:hi\n\n".toList]⟩)).2.filter isMessage
      ≠ (runSource (.success ⟨true, [], 200,
          some ["data:".toList, "hi\n\n".toList]⟩)).2.filter isMessage :=
  ⟨by decide, by decide, by decide⟩

/-- C9: immediately after each `onStreamLoaded` call returns, the pending
buffer field `chunk` is the empty string — the parser never carries
partial-record text from one read to the next. -/
theorem C9_chunk_cleared (v : JsStr) (s : SourceState) :
    (onStreamLoaded v s).1.chunk = [] := by
  unfold onStreamLoaded
  dsimp only
  split <;> rfl

/-- C10: `onStreamProgress` processes only `value.substring(progress)` and
advances `progress` to `max progress value.length`; a call whose argument
is no longer than the current `progress` counter behaves exactly like a
call with the empty string — the chunk's content is silently dropped, so
no text reaches the pending buffer and no event derives from it. -/
theorem C10_progress_offset :
    (∀ (v : JsStr) (s : SourceState),
      (onStreamProgress v s).1.progress = max s.progress v.length) ∧
    (∀ (v : JsStr) (s : SourceState), v.length ≤ s.progress →
      onStreamProgress v s = onStreamProgress [] s) := by
  constructor
  · exact onStreamProgress_progress
  · intro v s h
    have hd : v.drop s.progress = [] := by
      rw [List.drop_eq_nil_iff_le]
      exact h
    by_cases hc : s.readyState = CONNECTING <;>
      simp [onStreamProgress, setReadyState, hc, hd]

/-- Witness for C10 at a concrete short chunk. -/
theorem C10_progress_offset_witness :
    ("ab".toList.length ≤ ({ progress := 5 } : SourceState).progress) ∧
    onStreamProgress ("ab".toList) ({ progress := 5 } : SourceState)
      = onStreamProgress [] ({ progress := 5 } : SourceState) :=
  ⟨by decide, C10_progress_offset.2 ("ab".toList) { progress := 5 } (by decide)⟩

/-- C5: `CLOSED` is terminal — from a state with `readyState = CLOSED`,
`close`, a stream read (`onStreamProgress`/`onStreamLoaded`), a failure
(`onStreamFailure`), the end-of-stream check and the whole read loop leave
`readyState` at `CLOSED` (the loop does not even run); and from any
not-yet-closed state a second `close()` is a no-op, so two `close()` calls
dispatch exactly one `readystatechange` event with `readyState = CLOSED`. -/
theorem C5_closed_terminal :
    (∀ s : SourceState, s.readyState = CLOSED →
      (close s).1.readyState = CLOSED ∧
      (∀ v, (onStreamProgress v s).1.readyState = CLOSED) ∧
      (∀ v, (onStreamLoaded v s).1.readyState = CLOSED) ∧
      (∀ e, (onStreamFailure e s).1.readyState = CLOSED) ∧
      (∀ d, (checkStreamClosed d s).1.readyState = CLOSED) ∧
      (∀ chunks, readLoop chunks s = (s, []))) ∧
    (∀ s : SourceState, s.readyState ≠ CLOSED →
      close (close s).1 = ((close s).1, []) ∧
      ((close s).2 ++ (close (close s).1).2).filter isRscClosed
        = [rscEvent CLOSED]) := by
  constructor
  · intro s h
    refine ⟨?_, ?_, ?_, ?_, ?_, ?_⟩
    · rw [close_of_closed s h]
      exact h
    · intro v
      rw [onStreamProgress_readyState, h, if_neg (by decide : ¬(CLOSED = CONNECTING))]
    · intro v
      rw [onStreamLoaded_readyState, h, if_neg (by decide : ¬(CLOSED = CONNECTING))]
    · intro e
      show (close s).1.readyState = CLOSED
      exact close_readyState s
    · intro d
      unfold checkStreamClosed
      split
      · rfl
      · exact h
    · intro chunks
      exact readLoop_closed chunks s h
  · intro s h
    rw [close_of_ne s h]
    refine ⟨close_of_closed _ rfl, ?_⟩
    rw [close_of_closed _ rfl]
    show ([rscEvent CLOSED] ++ ([] : List SEvent)).filter isRscClosed = [rscEvent CLOSED]
    decide

/-- Witness for C5 at concrete states. -/
theorem C5_closed_terminal_witness :
    readLoop ["x".toList] ({ readyState := CLOSED } : SourceState)
      = (({ readyState := CLOSED } : SourceState), []) ∧
    close (close ({ readyState := OPEN } : SourceState)).1
      = ((close ({ readyState := OPEN } : SourceState)).1, []) :=
  ⟨(C5_closed_terminal.1 { readyState := CLOSED } rfl).2.2.2.2.2 ["x".toList],
   (C5_closed_terminal.2 { readyState := OPEN } (by decide)).1⟩

/-- C4: the claim states that every empty or whitespace-only chunk parses
to `null`; the code returns `null` only for the empty chunk.  The one-space
chunk parses to a full default `message` event instead of `null`, refuting
the claim as stated. -/
theorem C4_counterexample :
    parseEventChunk (" ".toList)
      = some { type := "message".toList, data := .str [], id := none,
               sse_id := some [] } ∧
    parseEventChunk (" ".toList) ≠ none :=
  ⟨by decide, by decide⟩

/-- C4 (amended): `parseEventChunk` returns `null` exactly for the empty
chunk; a whitespace-only nonempty chunk instead yields the default event
(type `message`, data `""`, id `null`).  (At the progress-path call site
the pending chunk is trimmed before parsing, so whitespace-only pending
text still dispatches nothing there.) -/
theorem C4_empty_only :
    (∀ c : JsStr, parseEventChunk c = none ↔ c = []) ∧
    (∀ c : JsStr, c ≠ [] → (∀ ch ∈ c, isWs ch = true) →
      parseEventChunk c = some (buildEvent initRecord)) := by
  constructor
  · intro c
    by_cases hc : c = [] <;> simp [parseEventChunk, hc]
  · intro c hc hws
    have hlines : ∀ l ∈ splitLines c, lineKV l = none := fun l hl =>
      lineKV_of_ws l (fun x hx => hws x (splitLines_mem c l hl x hx))
    unfold parseEventChunk
    rw [if_neg hc, foldl_stepLine_ws _ _ hlines]

/-- Witness for C4 (amended) at the one-space chunk. -/
theorem C4_empty_only_witness :
    (" ".toList ≠ []) ∧ parseEventChunk (" ".toList) = some (buildEvent initRecord) :=
  ⟨by decide, C4_empty_only.2 (" ".toList) (by decide) (by decide)⟩

/-- C2: the claim states that exactly the four field names `id`, `retry`,
`data`, `event` are recognized and any other field name leaves the event
unchanged; but the accumulator also owns the key `sse_id`, so a line
`sse_id:x` changes the resulting event's `sse_id` field, refuting the
claim. -/
theorem C2_counterexample :
    parseEventChunk ("sse_id:x\ndata:y".toList)
      ≠ parseEventChunk ("data:y".toList) ∧
    parseEventChunk ("sse_id:x\ndata:y".toList)
      = some { type := "message".toList, data := .str "y".toList, id := none,
               sse_id := some "x".toList } :=
  ⟨by decide, by decide⟩

/-- C2 (amended): record parsing recognizes exactly the five own keys of
the accumulator — `id`, `retry`, `data`, `event` and `sse_id` (the last
setting the event's `sse_id`); every line whose field name is any other
string, as well as every comment/no-separator line, has no effect on the
resulting record, and raises no error. -/
theorem C2_recognized_fields :
    (∀ (r : RawRecord) (l : JsStr) (f v : JsStr), lineKV l = some (f, v) →
      f ∉ recognizedFields → stepLine r l = r) ∧
    (∀ (r : RawRecord) (l : JsStr), lineKV l = none → stepLine r l = r) ∧
    (∀ (ls1 ls2 : List JsStr) (l : JsStr) (r : RawRecord) (f v : JsStr),
      lineKV l = some (f, v) → f ∉ recognizedFields →
      (ls1 ++ l :: ls2).foldl stepLine r = (ls1 ++ ls2).foldl stepLine r) ∧
    parseEventChunk ("sse_id:x".toList)
      = some { type := "message".toList, data := .str [], id := none,
               sse_id := some "x".toList } := by
  refine ⟨?_, ?_, ?_, by decide⟩
  · intro r l f v h hn
    exact stepLine_of_unrecognized r l f v h hn
  · intro r l h
    exact stepLine_of_none r l h
  · intro ls1 ls2 l r f v h hn
    rw [List.foldl_append, List.foldl_append, List.foldl_cons,
      stepLine_of_unrecognized _ l f v h hn]

/-- Witness for C2 (amended) at a concrete unrecognized field line. -/
theorem C2_recognized_fields_witness :
    lineKV ("foo:bar".toList) = some ("foo".toList, "bar".toList) ∧
    ("foo".toList ∉ recognizedFields) ∧
    (["data:a".toList] ++ "foo:bar".toList :: ["data:b".toList]).foldl stepLine initRecord
      = (["data:a".toList] ++ ["data:b".toList]).foldl stepLine initRecord :=
  ⟨by decide, by decide,
   C2_recognized_fields.2.2.1 ["data:a".toList] ["data:b".toList] ("foo:bar".toList)
     initRecord ("foo".toList) ("bar".toList) (by decide) (by decide)⟩

/-- C6: every failure — a thrown error while establishing the stream, a
non-success response status, or an absent body — makes the client dispatch
exactly one `error` event carrying the failure object as `data`, after
which the connection state is `CLOSED`. -/
theorem C6_failure_funnel :
    (∀ (e : ErrObj) (s : SourceState),
      (onStreamFailure e s).2.filter isError = [errEvent e] ∧
      (onStreamFailure e s).1.readyState = CLOSED) ∧
    (∀ (err : ErrObj) (s : SourceState),
      (init (.failure err) s).2.filter isError = [errEvent err] ∧
      (init (.failure err) s).1.readyState = CLOSED) ∧
    (∀ (st : JsStr) (code : Nat) (chunks : List JsStr) (s : SourceState),
      (init (.success ⟨false, st, code, some chunks⟩) s).2.filter isError
        = [errEvent { message := st, status := code }] ∧
      (init (.success ⟨false, st, code, some chunks⟩) s).1.readyState = CLOSED) ∧
    (∀ (st : JsStr) (code : Nat) (s : SourceState),
      (init (.success ⟨true, st, code, none⟩) s).2.filter isError
        = [errEvent { message := "The response did not have a body".toList,
                      status := 500 }] ∧
      (init (.success ⟨true, st, code, none⟩) s).1.readyState = CLOSED) := by
  refine ⟨?_, ?_, ?_, ?_⟩
  · intro e s
    exact ⟨onStreamFailure_error_events e s, close_readyState s⟩
  · intro err s
    constructor
    · show (rscEvent CONNECTING ::
        (onStreamFailure err { s with readyState := CONNECTING }).2).filter isError
          = [errEvent err]
      rw [List.filter_cons_of_neg (by decide), onStreamFailure_error_events]
    · exact close_readyState { s with readyState := CONNECTING }
  · intro st code chunks s
    constructor
    · show (List.filter isError
        ([rscEvent CONNECTING] ++ [errEvent ⟨st, code⟩, rscEvent CLOSED] ++
          (readLoop chunks
            { readyState := CLOSED, progress := s.progress, chunk := s.chunk,
              reader := true }).2)) = [errEvent ⟨st, code⟩]
      rw [readLoop_closed _ _ rfl]
      rw [List.filter_append, List.filter_append]
      rw [List.filter_cons_of_neg (by decide), List.filter_cons_of_pos rfl,
        List.filter_cons_of_neg (by decide)]
      rfl
    · show (readLoop chunks
        { readyState := CLOSED, progress := s.progress, chunk := s.chunk,
          reader := true }).1.readyState = CLOSED
      rw [readLoop_closed _ _ rfl]
  · intro st code s
    constructor
    · show (List.filter isError
        ([rscEvent CONNECTING] ++ [] ++
          [errEvent ⟨"The response did not have a body".toList, 500⟩,
           rscEvent CLOSED])) = _
      rw [List.filter_append, List.filter_append]
      rfl
    · rfl

/-- Witness for C6 at a concrete failing response. -/
theorem C6_failure_funnel_witness :
    (init (.success ⟨false, "ISE".toList, 500, some ["x".toList]⟩) {}).2.filter isError
      = [errEvent { message := "ISE".toList, status := 500 }] ∧
    (init (.success ⟨false, "ISE".toList, 500, some ["x".toList]⟩) {}).1.readyState
      = CLOSED :=
  C6_failure_funnel.2.2.1 ("ISE".toList) 500 ["x".toList] {}

/-- C7: the claim states that after the error event of a non-ok response
the read attempt continues and chunks from the body can still be read and
processed; but on this non-ok response whose body holds a complete record
no `message` event is ever dispatched — the failure path closes the
connection first, so the read loop's guard fails immediately. -/
theorem C7_counterexample :
    (runSource (.success ⟨false, "Internal Server Error".toList, 500,
        some ["data:x\n\n".toList]⟩)).2.filter isMessage = [] ∧
    (runSource (.success ⟨false, "Internal Server Error".toList, 500,
        some ["data:x\n\n".toList]⟩)).2.filter isError
      = [errEvent ⟨"Internal Server Error".toList, 500⟩] ∧
    (runSource (.success ⟨false, "Internal Server Error".toList, 500,
        some ["data:x\n\n".toList]⟩)).1.readyState = CLOSED :=
  ⟨by decide, by decide, by decide⟩

/-- C7 (amended): on a non-ok response the client emits the error event
and transitions to `CLOSED`; it still attaches a body reader and reaches
the read loop, but because the state is already `CLOSED` the loop guard
fails at once, so no chunk of the body is read or processed — the result
is independent of the body's chunks. -/
theorem C7_nonok_no_read (st : JsStr) (code : Nat) (chunks : List JsStr)
    (s : SourceState) :
    init (.success ⟨false, st, code, some chunks⟩) s
      = ({ readyState := CLOSED, progress := s.progress, chunk := s.chunk,
           reader := true },
         [rscEvent CONNECTING, errEvent { message := st, status := code },
          rscEvent CLOSED]) := by
  show ((readLoop chunks
      { readyState := CLOSED, progress := s.progress, chunk := s.chunk,
        reader := true }).1,
    [rscEvent CONNECTING] ++ [errEvent ⟨st, code⟩, rscEvent CLOSED] ++
      (readLoop chunks
        { readyState := CLOSED, progress := s.progress, chunk := s.chunk,
          reader := true }).2) = _
  rw [readLoop_closed _ _ rfl]
  rfl

/-- Witness for C7 (amended) at a concrete non-ok response. -/
theorem C7_nonok_no_read_witness :
    init (.success ⟨false, "ISE".toList, 500, some ["data:x\n\n".toList]⟩) {}
      = ({ readyState := CLOSED, progress := 0, chunk := [], reader := true },
         [rscEvent CONNECTING, errEvent { message := "ISE".toList, status := 500 },
          rscEvent CLOSED]) :=
  C7_nonok_no_read ("ISE".toList) 500 ["data:x\n\n".toList] {}

theorem getListeners_setListeners {κ : Type} (t : JsStr) (v : List (Entry κ)) :
    ∀ reg : Registry κ, getListeners t (setListeners t v reg) = some v
  | [] => by simp [setListeners, getListeners]
  | (t', v') :: rest => by
    by_cases h : t' = t
    · simp [setListeners, getListeners, h]
    · simp [setListeners, getListeners, h, getListeners_setListeners t v rest]

/-- C8: `on(type, cb)` replaces all listeners registered for `type` by the
single wrapping callback around `cb` (so two `on` calls for the same type
leave exactly one active callback, the second's); the wrapper formats the
event's `data` before invoking `cb`: a non-empty string that decodes as
JSON arrives decoded, a non-empty string that fails to decode arrives as
the original string, and falsy data (null or the empty string) arrives as
`null`. -/
theorem C8_on_replaces_and_formats (J κ : Type) (parse : JsStr → Option J)
    (reg : Registry κ) (t : JsStr) (cb1 cb2 : κ) :
    getListeners t (onEvent t cb2 (onEvent t cb1 reg)) = some [Entry.wrapped cb2] ∧
    (∀ d : FmtData J, invokeEntry parse (Entry.wrapped cb2) d
      = (cb2, formatDataOnEvent parse d)) ∧
    (∀ (sd : JsStr) (j : J), sd ≠ [] → parse sd = some j →
      formatDataOnEvent parse (.str sd) = .json j) ∧
    (∀ sd : JsStr, sd ≠ [] → parse sd = none →
      formatDataOnEvent parse (.str sd) = .str sd) ∧
    formatDataOnEvent parse (FmtData.str ([] : JsStr)) = (FmtData.null : FmtData J) ∧
    formatDataOnEvent parse (FmtData.null : FmtData J) = FmtData.null := by
  refine ⟨getListeners_setListeners t _ _, fun d => rfl, ?_, ?_, rfl, rfl⟩
  · intro sd j hne hp
    unfold formatDataOnEvent
    dsimp only
    rw [if_neg hne, hp]
  · intro sd hne hp
    unfold formatDataOnEvent
    dsimp only
    rw [if_neg hne, hp]

/-- Witness for C8 with a concrete decoder and callbacks. -/
theorem C8_on_replaces_and_formats_witness :
    getListeners ("message".toList)
      (onEvent ("message".toList) 2 (onEvent ("message".toList) 1
        ([] : Registry Nat))) = some [Entry.wrapped 2] ∧
    formatDataOnEvent (fun sd => if sd = "1".toList then some (1 : Nat) else none)
      (FmtData.str ("1".toList)) = FmtData.json 1 ∧
    formatDataOnEvent (fun sd => if sd = "1".toList then some (1 : Nat) else none)
      (FmtData.str ("x".toList)) = FmtData.str ("x".toList) :=
  ⟨(C8_on_replaces_and_formats Nat Nat
      (fun sd => if sd = "1".toList then some 1 else none) [] ("message".toList) 1 2).1,
   (C8_on_replaces_and_formats Nat Nat
      (fun sd => if sd = "1".toList then some 1 else none) [] ("message".toList) 1 2).2.2.1
     ("1".toList) 1 (by decide) rfl,
   (C8_on_replaces_and_formats Nat Nat
      (fun sd => if sd = "1".toList then some 1 else none) [] ("message".toList) 1 2).2.2.2.1
     ("x".toList) (by decide) rfl⟩

theorem processPart_append (se : SourceState × List SEvent) (part : JsStr)
    (h : ¬(jsTrim part = [])) :
    processPart se part = ({ se.1 with chunk := se.1.chunk ++ part }, se.2) := by
  unfold processPart
  dsimp only
  rw [if_neg h]

theorem processPart_flush (se : SourceState × List SEvent) (part : JsStr)
    (hp : jsTrim part = []) (ev : SEvent)
    (hev : parseEventChunk (jsTrim se.1.chunk) = some ev) :
    processPart se part = ({ se.1 with chunk := [] }, se.2 ++ [ev]) := by
  unfold processPart
  dsimp only
  rw [if_pos hp, hev]

theorem processPart_flush_none (se : SourceState × List SEvent) (part : JsStr)
    (hp : jsTrim part = []) (hev : parseEventChunk (jsTrim se.1.chunk) = none) :
    processPart se part = ({ se.1 with chunk := [] }, se.2) := by
  unfold processPart
  dsimp only
  rw [if_pos hp, hev]

theorem processPart_chain (L : Nat) (c : JsStr) (hne : c ≠ []) (htrim : jsTrim c = c) :
    List.foldl processPart
      ({ readyState := OPEN, progress := L, chunk := [], reader := true }, ([] : List SEvent))
      [c, ['\n'], []]
      = ({ readyState := OPEN, progress := L, chunk := [], reader := true },
         [buildEvent ((splitLines c).foldl stepLine initRecord)]) := by
  have hjc : ¬(jsTrim c = []) := by rw [htrim]; exact hne
  have t1 : processPart
      ({ readyState := OPEN, progress := L, chunk := [], reader := true }, ([] : List SEvent)) c
      = ({ readyState := OPEN, progress := L, chunk := c, reader := true }, []) := by
    rw [processPart_append _ c hjc]
    rfl
  have hev : parseEventChunk (jsTrim
      ((({ readyState := OPEN, progress := L, chunk := c, reader := true } : SourceState),
        ([] : List SEvent))).1.chunk)
      = some (buildEvent ((splitLines c).foldl stepLine initRecord)) := by
    show parseEventChunk (jsTrim c) = _
    rw [htrim]
    unfold parseEventChunk
    rw [if_neg hne]
  have t2 : processPart
      ({ readyState := OPEN, progress := L, chunk := c, reader := true }, ([] : List SEvent)) ['\n']
      = ({ readyState := OPEN, progress := L, chunk := [], reader := true },
         [buildEvent ((splitLines c).foldl stepLine initRecord)]) := by
    rw [processPart_flush _ ['\n'] rfl _ hev]
    rfl
  have t3 : processPart
      ({ readyState := OPEN, progress := L, chunk := [], reader := true },
        [buildEvent ((splitLines c).foldl stepLine initRecord)]) []
      = ({ readyState := OPEN, progress := L, chunk := [], reader := true },
         [buildEvent ((splitLines c).foldl stepLine initRecord)]) := by
    rw [processPart_flush_none
      ({ readyState := OPEN, progress := L, chunk := [], reader := true },
        [buildEvent ((splitLines c).foldl stepLine initRecord)]) [] rfl (by rfl)]
  rw [List.foldl_cons, t1, List.foldl_cons, t2, List.foldl_cons, t3, List.foldl_nil]

theorem onStreamLoaded_of_progress (v : JsStr) (s s' : SourceState)
    (evs : List SEvent) (h : onStreamProgress v s = (s', evs)) (h2 : s'.chunk = []) :
    onStreamLoaded v s = ({ s' with chunk := [] }, evs) := by
  unfold onStreamLoaded
  dsimp only
  simp only [h]
  rw [h2]
  rfl

theorem loaded_single_record (c : JsStr) (hc : goodRecord c = true) :
    onStreamLoaded (c ++ ['\n', '\n'])
        { readyState := OPEN, progress := 0, chunk := [], reader := true }
      = ({ readyState := OPEN, progress := c.length + 2, chunk := [], reader := true },
         [buildEvent ((splitLines c).foldl stepLine initRecord)]) := by
  obtain ⟨hne, htrim, hr, hadj, hl⟩ := goodRecord_spec c hc
  have hP : onStreamProgress (c ++ ['\n', '\n'])
      { readyState := OPEN, progress := 0, chunk := [], reader := true }
      = ({ readyState := OPEN, progress := 0 + (c ++ ['\n', '\n']).length, chunk := [],
           reader := true },
         [buildEvent ((splitLines c).foldl stepLine initRecord)]) := by
    show List.foldl processPart
        ({ readyState := OPEN, progress := 0 + (c ++ ['\n', '\n']).length, chunk := [],
           reader := true }, ([] : List SEvent))
        (splitDouble ((c ++ ['\n', '\n']).drop 0)) = _
    rw [List.drop_zero, splitDouble_terminated c hc,
      processPart_chain (0 + (c ++ ['\n', '\n']).length) c hne htrim]
  rw [onStreamLoaded_of_progress _ _ _ _ hP rfl]
  simp [List.length_append]


/-- C3: the claim states that every well-formed single record terminated
by a blank line and parsed in one piece yields exactly one
StructuredEvent; but a record may use `\r\n` as an interior line
terminator, and the backtracking of `(\r\n|\r|\n){2}` makes even a lone
`\r\n` match as the two one-character terminators `(\r)(\n)`, i.e. as a
record boundary: the well-formed CRLF-delimited record
`data:foo\r\ndata:bar\n\n` dispatches two `message` events (data `foo`
and `bar`) instead of the single event with data `foobar` the claim
requires. -/
theorem C3_counterexample :
    (onStreamLoaded ("data:foo\r\ndata:bar\n\n".toList)
        { readyState := OPEN, progress := 0, chunk := [], reader := true }).2
      = [{ type := "message".toList, data := .str "foo".toList, id := none,
           sse_id := some [] },
         { type := "message".toList, data := .str "bar".toList, id := none,
           sse_id := some [] }] ∧
    (onStreamLoaded ("data:foo\r\ndata:bar\n\n".toList)
        { readyState := OPEN, progress := 0, chunk := [], reader := true }).2
      ≠ [{ type := "message".toList, data := .str "foobar".toList, id := none,
           sse_id := some [] }] :=
  ⟨by decide, by decide⟩

/-- C3 (amended): for every well-formed single record whose interior line
terminators are bare `\n` — no carriage returns, since the program treats
even a lone `\r\n` as a record boundary — with no empty interior lines
and starting and ending in a non-whitespace character, parsing the record
with its blank-line terminator in one piece yields exactly one
StructuredEvent, namely the fold of the record's lines through the
accumulator; the fold obeys in-order no-separator concatenation for
`data` (`data:foo\ndata:bar\n\n` gives data `foobar`), last-value-wins
for `id`, `retry` and `event`, defaults `event = "message"`, `id = null`,
`data = ""` when the field is absent, and ignores comment lines and lines
without a separator. -/
theorem C3_single_record_rules :
    (∀ c : JsStr, goodRecord c = true →
      onStreamLoaded (c ++ ['\n', '\n'])
          { readyState := OPEN, progress := 0, chunk := [], reader := true }
        = ({ readyState := OPEN, progress := c.length + 2, chunk := [], reader := true },
           [buildEvent ((splitLines c).foldl stepLine initRecord)])) ∧
    (onStreamLoaded ("data:foo\ndata:bar\n\n".toList)
        { readyState := OPEN, progress := 0, chunk := [], reader := true }).2
      = [{ type := "message".toList, data := .str "foobar".toList, id := none,
           sse_id := some [] }] ∧
    (∀ (r : RawRecord) (ls : List JsStr) (l v : JsStr),
      lineKV l = some ("data".toList, v) →
      (ls ++ [l]).foldl stepLine r
        = { ls.foldl stepLine r with data := (ls.foldl stepLine r).data ++ v }) ∧
    (∀ (r : RawRecord) (ls : List JsStr) (l v : JsStr),
      lineKV l = some ("id".toList, v) →
      ((ls ++ [l]).foldl stepLine r).id = some v) ∧
    (∀ (r : RawRecord) (ls : List JsStr) (l v : JsStr),
      lineKV l = some ("retry".toList, v) →
      ((ls ++ [l]).foldl stepLine r).retry = some v) ∧
    (∀ (r : RawRecord) (ls : List JsStr) (l v : JsStr),
      lineKV l = some ("event".toList, v) →
      ((ls ++ [l]).foldl stepLine r).event = v) ∧
    (∀ ls : List JsStr,
      (∀ l ∈ ls, ∀ kv, lineKV l = some kv → kv.1 ≠ "event".toList) →
      (ls.foldl stepLine initRecord).event = "message".toList) ∧
    (∀ ls : List JsStr,
      (∀ l ∈ ls, ∀ kv, lineKV l = some kv → kv.1 ≠ "id".toList) →
      (ls.foldl stepLine initRecord).id = none) ∧
    (∀ ls : List JsStr,
      (∀ l ∈ ls, ∀ kv, lineKV l = some kv → kv.1 ≠ "data".toList) →
      (ls.foldl stepLine initRecord).data = []) ∧
    (∀ (r : RawRecord) (l : JsStr), lineKV l = none → stepLine r l = r) ∧
    lineKV (":comment".toList) = none ∧
    lineKV ("nocolon".toList) = none := by
  refine ⟨loaded_single_record, by decide, ?_, ?_, ?_, ?_, ?_, ?_, ?_,
    stepLine_of_none, by decide, by decide⟩
  · intro r ls l v h
    rw [List.foldl_append, List.foldl_cons, List.foldl_nil, stepLine_of_data _ l v h]
  · intro r ls l v h
    rw [List.foldl_append, List.foldl_cons, List.foldl_nil, stepLine_of_id _ l v h]
  · intro r ls l v h
    rw [List.foldl_append, List.foldl_cons, List.foldl_nil, stepLine_of_retry _ l v h]
  · intro r ls l v h
    rw [List.foldl_append, List.foldl_cons, List.foldl_nil, stepLine_of_event _ l v h]
  · intro ls h
    exact foldl_stepLine_event ls initRecord h
  · intro ls h
    exact (foldl_stepLine_id ls initRecord h).trans rfl
  · intro ls h
    exact (foldl_stepLine_data ls initRecord h).trans rfl

/-- Witness for C3 at the canonical two-data-line record. -/
theorem C3_single_record_rules_witness :
    goodRecord ("data:foo\ndata:bar".toList) = true ∧
    onStreamLoaded ("data:foo\ndata:bar".toList ++ ['\n', '\n'])
        { readyState := OPEN, progress := 0, chunk := [], reader := true }
      = ({ readyState := OPEN, progress := "data:foo\ndata:bar".toList.length + 2,
           chunk := [], reader := true },
         [buildEvent ((splitLines ("data:foo\ndata:bar".toList)).foldl stepLine
           initRecord)]) ∧
    lineKV ("id:7".toList) = some ("id".toList, "7".toList) ∧
    ((["id:1".toList] ++ ["id:7".toList]).foldl stepLine initRecord).id
      = some ("7".toList) :=
  ⟨by decide, C3_single_record_rules.1 ("data:foo\ndata:bar".toList) (by decide),
   by decide,
   C3_single_record_rules.2.2.2.1 initRecord ["id:1".toList] ("id:7".toList)
     ("7".toList) (by decide)⟩

end SSE

